import Mathlib

/-!
Shallow embedding of img-cropper (src/img-cropper-rust/src/main.rs).

Strings are modelled as `List Char` (the program only ever sees valid
UTF-8 in the places the claims touch).  Rust `u32` arithmetic is modelled
as `Nat` with an explicit `% 2^32` (release-mode wrapping) where the
source multiplies two `u32` values.  Fallible Rust functions returning
`Result` are modelled with `Except`.
-/

namespace ImgCropper

/-- Rust `u32` wraparound: the value of a `u32` product/sum in release mode. -/
def u32 (n : Nat) : Nat := n % 4294967296

/-- Model of Rust `char::to_ascii_lowercase` (used via `str::to_ascii_lowercase`). -/
def asciiLower (c : Char) : Char :=
  if 'A' ≤ c ∧ c ≤ 'Z' then Char.ofNat (c.toNat + 32) else c

/-- Model of Rust `str::to_ascii_lowercase` over the character list. -/
def lowerStr (s : List Char) : List Char := s.map asciiLower

/-- Model of Rust `str::split('x').collect::<Vec<_>>()` (main.rs line 114):
splits at every occurrence of `x`, keeping empty pieces, so the empty
string yields one (empty) part. -/
def splitX : List Char → List (List Char)
  | [] => [[]]
  | c :: rest =>
    if c = 'x' then [] :: splitX rest
    else
      match splitX rest with
      | [] => [[c]]
      | p :: ps => (c :: p) :: ps

/-- Numeric value of a digit string, most significant digit first (the
accumulation order of Rust `u32::from_str`). -/
def digitsVal (ds : List Char) : Nat :=
  ds.foldl (fun acc d => acc * 10 + (d.toNat - 48)) 0

/-- The digit-run stage of `u32::from_str`: one or more ASCII digits
whose value fits in `u32`. -/
def parseDigits (ds : List Char) : Option Nat :=
  if ds ≠ [] ∧ ds.all (fun d => d.isDigit) then
    if digitsVal ds < 4294967296 then some (digitsVal ds) else none
  else none

/-- Model of Rust `str::parse::<u32>` (`u32::from_str`): an optional leading
`+`, then one or more ASCII digits, and the value must fit in `u32`;
everything else is a parse error (`none`).  A leading `-` is not special
for an unsigned type: `-` is not a digit, so the parse fails. -/
def parseU32 : List Char → Option Nat
  | [] => none
  | c :: rest => parseDigits (if c = '+' then rest else c :: rest)

/-- The four error kinds of `parse_size` (main.rs lines 113-131); the Rust
code returns distinct `String` messages, one per kind. -/
inductive SizeError where
  | invalidFormat
  | invalidWidth
  | invalidHeight
  | nonPositive
deriving DecidableEq

/-- Model of `parse_size` (main.rs lines 113-131): split on the literal
`x`, demand exactly two parts, parse each as `u32`, reject zeroes. -/
def parse_size (s : List Char) : Except SizeError (Nat × Nat) :=
  match splitX s with
  | [p0, p1] =>
    match parseU32 p0 with
    | none => .error .invalidWidth
    | some w =>
      match parseU32 p1 with
      | none => .error .invalidHeight
      | some h =>
        if w = 0 ∨ h = 0 then .error .nonPositive
        else .ok (w, h)
  | _ => .error .invalidFormat

example : parse_size ("400x300").toList = .ok (400, 300) := rfl
example : parse_size ("0x300").toList = .error .nonPositive := rfl
example : parse_size ("").toList = .error .invalidFormat := rfl
example : parse_size ("4x3x2").toList = .error .invalidFormat := rfl
example : parse_size ("-4x3").toList = .error .invalidWidth := rfl
example : parse_size ("4xx3").toList = .error .invalidFormat := rfl
example : parse_size ("4x").toList = .error .invalidHeight := rfl
example : parse_size ("+4x3").toList = .ok (4, 3) := rfl

/-- Model of `is_supported_image_extension` (main.rs lines 133-135): the
fixed allow-set, matched against the already-lowercased extension. -/
def is_supported_image_extension (ext : List Char) : Bool :=
  ext = ("jpg").toList || ext = ("jpeg").toList || ext = ("png").toList ||
  ext = ("gif").toList || ext = ("webp").toList

/-- Index of the last `.` in a file name, if any. -/
def lastDotIdx : List Char → Option Nat
  | [] => none
  | c :: rest =>
    match lastDotIdx rest with
    | some i => some (i + 1)
    | none => if c = '.' then some 0 else none

/-- Model of Rust `Path::extension` on a final path component: the portion
after the last `.`, except that a name whose only `.` is its first
character (a dotfile such as `.gitignore`) has no extension. -/
def rustExtension (name : List Char) : Option (List Char) :=
  match lastDotIdx name with
  | none => none
  | some 0 => none
  | some (i + 1) => some (name.drop (i + 2))

example : rustExtension ("photo.JPG").toList = some (("JPG").toList) := rfl
example : rustExtension ("archive.tar.gz").toList = some (("gz").toList) := rfl
example : rustExtension ("noext").toList = none := rfl
example : rustExtension (".gitignore").toList = none := rfl
example : rustExtension ("odd.").toList = some [] := rfl

/-- A walkdir entry, as far as the filter (main.rs lines 60-80) inspects
it: whether it is a file, the directory components under the scan root,
and the final path component.  Paths are modelled as component lists. -/
structure DirEntry where
  isFile : Bool
  dir : List (List Char)
  fileName : List Char
deriving DecidableEq

/-- A WorkItem: the (source, destination) path pair collected at main.rs
lines 73-75, paths as component lists. -/
structure WorkItem where
  src : List (List Char)
  dst : List (List Char)
deriving DecidableEq

/-- Model of the `filter_map` closure (main.rs lines 64-79): compute the
entry's extension, lowercase it (`to_ascii_lowercase`), keep the entry if
the extension is in the allow-set, and pair the source path with
`output_dir.join(file_name)`. -/
def entryToWorkItem (outDir : List (List Char)) (e : DirEntry) : Option WorkItem :=
  match (rustExtension e.fileName).map lowerStr with
  | some ext =>
    if is_supported_image_extension ext then
      some { src := e.dir ++ [e.fileName], dst := outDir ++ [e.fileName] }
    else none
  | none => none

/-- The whole per-entry pipeline of main.rs lines 60-80: the
`.filter(is_file)` stage followed by the `filter_map` closure. -/
def workItemFor (outDir : List (List Char)) (e : DirEntry) : Option WorkItem :=
  if e.isFile = true then entryToWorkItem outDir e else none

/-- Model of the `image_paths` collection (main.rs lines 60-80) over the
list of entries the walk yields. -/
def discoverItems (outDir : List (List Char)) (entries : List DirEntry) : List WorkItem :=
  (entries.filter (fun e => e.isFile)).filterMap (entryToWorkItem outDir)

/-- The encode formats of the image crate's `ImageFormat` enum (the ones
with registered extensions). -/
inductive ImageFormat where
  | png | jpeg | gif | webp | avif | tiff | tga | dds | bmp | ico | hdr
  | openExr | pnm | farbfeld | qoi
deriving DecidableEq

/-- The extension table of the image crate's `ImageFormat::from_extension`,
keyed by the already-ASCII-lowercased extension. -/
def ImageFormat.forLower (l : List Char) : Option ImageFormat :=
  if l = ("avif").toList then some .avif
  else if l = ("jpg").toList ∨ l = ("jpeg").toList then some .jpeg
  else if l = ("png").toList then some .png
  else if l = ("gif").toList then some .gif
  else if l = ("webp").toList then some .webp
  else if l = ("tif").toList ∨ l = ("tiff").toList then some .tiff
  else if l = ("tga").toList then some .tga
  else if l = ("dds").toList then some .dds
  else if l = ("bmp").toList then some .bmp
  else if l = ("ico").toList then some .ico
  else if l = ("hdr").toList then some .hdr
  else if l = ("exr").toList then some .openExr
  else if l = ("pbm").toList ∨ l = ("pam").toList ∨ l = ("ppm").toList ∨
          l = ("pgm").toList then some .pnm
  else if l = ("ff").toList ∨ l = ("farbfeld").toList then some .farbfeld
  else if l = ("qoi").toList then some .qoi
  else none

/-- Model of the image crate's `ImageFormat::from_extension`: the
extension is ASCII-lowercased and looked up in the fixed table. -/
def ImageFormat.fromExtension (ext : List Char) : Option ImageFormat :=
  ImageFormat.forLower (lowerStr ext)

/-- Model of the image crate's `ImageFormat::from_path`: take the
extension of the path's final component and look it up. -/
def ImageFormat.fromPath (p : List (List Char)) : Option ImageFormat :=
  p.getLast?.bind (fun name => (rustExtension name).bind ImageFormat.fromExtension)

/-- The format actually handed to `save_with_format` (main.rs lines
176-177): `ImageFormat::from_path(output_path).unwrap_or(ImageFormat::Png)`. -/
def encodeFormat (p : List (List Char)) : ImageFormat :=
  (ImageFormat.fromPath p).getD .png

/-- A decoded pixel buffer (`DynamicImage`): dimensions plus the pixel at
each coordinate.  Only coordinates with `x < width` and `y < height` are
meaningful; `pix` is total for convenience. -/
@[ext] structure Img where
  width : Nat
  height : Nat
  pix : Nat → Nat → Nat

/-- Rounded division, nearest with ties away from zero: the effect of
f64 `.round()` on the non-negative exact quotient `a / b`.  This is also
the `round` the spec's resize formulas speak of. -/
def roundDiv (a b : Nat) : Nat := (2 * a + b) / (2 * b)

/-- Model of the image crate's `resize_dimensions(width, height, nwidth,
nheight, fill := false)`, the bounding-box fit used by
`DynamicImage::resize`: `ratio = min(nwidth/width, nheight/height)`, the
output is `(max (round (width * ratio)) 1, max (round (height * ratio)) 1)`,
clamped to `u32::MAX` per axis.  The crate computes the ratios in f64;
here the same arithmetic is carried out over the exact rationals, written
with integer operations (`nwidth/width ≤ nheight/height` iff
`nwidth * height ≤ nheight * width`, and `round (a * (b / c)) = roundDiv (a * b) c`). -/
def resize_dimensions (width height nwidth nheight : Nat) : Nat × Nat :=
  let wleast := nwidth * height ≤ nheight * width
  let nw := if wleast then max (roundDiv (width * nwidth) width) 1
            else max (roundDiv (width * nheight) height) 1
  let nh := if wleast then max (roundDiv (height * nwidth) width) 1
            else max (roundDiv (height * nheight) height) 1
  if nw > 4294967295 then
    (4294967295, max (roundDiv (height * 4294967295) width) 1)
  else if nh > 4294967295 then
    (max (roundDiv (width * 4294967295) height) 1, 4294967295)
  else (nw, nh)

/-- Model of `DynamicImage::resize(nwidth, nheight, filter)`: if the
bounds equal the current dimensions the image is returned unchanged
(`self.clone()`); otherwise the image is resampled to the aspect-fit
dimensions.  The resampling filter (Lanczos3 in the source) is the
out-of-scope collaborator, passed in as `resample`; only the dimensions
it is asked for are fixed here. -/
def resizeFit (resample : Img → Nat → Nat → Img) (img : Img)
    (nwidth nheight : Nat) : Img :=
  if nwidth = img.width ∧ nheight = img.height then img
  else
    let d := resize_dimensions img.width img.height nwidth nheight
    resample img d.1 d.2

/-- The bounds passed to `img.resize` by `crop_image` (main.rs lines
149-165): the two branches of the `if original_width * target_height >
original_height * target_width` comparison, with the `u32` products
wrapping and the Rust `/` on `u32` truncating. -/
def crop_resize_args (ow oh tw th : Nat) : Nat × Nat :=
  if u32 (ow * th) > u32 (oh * tw) then (u32 (ow * th) / oh, th)
  else (tw, u32 (oh * tw) / ow)

/-- The `img_resized` intermediate of `crop_image` (main.rs lines 149-167). -/
def crop_resized (resample : Img → Nat → Nat → Img) (img : Img)
    (tw th : Nat) : Img :=
  resizeFit resample img (crop_resize_args img.width img.height tw th).1
    (crop_resize_args img.width img.height tw th).2

/-- Model of `DynamicImage::crop_imm(x, y, width, height)`: the crate
clips the requested rectangle to the image bounds (`crop_dimms`), so the
result can be smaller than `width × height`. -/
def cropImm (img : Img) (x y w h : Nat) : Img :=
  let x2 := min x img.width
  let y2 := min y img.height
  { width := min w (img.width - x2)
    height := min h (img.height - y2)
    pix := fun i j => img.pix (x2 + i) (y2 + j) }

/-- Model of the pure transform inside `crop_image` (main.rs lines
147-173): branch on the aspect comparison, resize, compute the centre
crop origin with `saturating_sub` (Nat subtraction saturates the same
way) and floor division by 2, and crop.  Decode and encode (lines
144-145 and 176-179) are the fallible collaborators around this. -/
def crop_image (resample : Img → Nat → Nat → Img) (img : Img)
    (target_width target_height : Nat) : Img :=
  let img_resized := crop_resized resample img target_width target_height
  let crop_x := (img_resized.width - target_width) / 2
  let crop_y := (img_resized.height - target_height) / 2
  cropImm img_resized crop_x crop_y target_width target_height

/-- A concrete stand-in for the resampling collaborator (nearest
neighbour): it honours the requested dimensions, which is all the
dimension claims use. -/
def resampleNearest (img : Img) (nw nh : Nat) : Img :=
  { width := nw
    height := nh
    pix := fun i j => img.pix (i * img.width / nw) (j * img.height / nh) }

/-- A concrete 3×5 source image (the failing input of the dimension
claims); the pixel values are arbitrary but distinct. -/
def img3x5 : Img :=
  { width := 3, height := 5, pix := fun i j => 10 * j + i }

example : crop_resize_args 3 5 2 4 = (2, 4) := rfl
example : resize_dimensions 3 5 2 4 = (2, 3) := rfl
example : (crop_image resampleNearest img3x5 2 4).width = 2 := rfl
example : (crop_image resampleNearest img3x5 2 4).height = 3 := rfl
example : crop_resize_args 800 600 400 300 = (400, 300) := rfl
example : (crop_image resampleNearest { width := 800, height := 600, pix := fun _ _ => 0 } 400 300).width = 400 := rfl
example : (crop_image resampleNearest { width := 800, height := 600, pix := fun _ _ => 0 } 400 300).height = 300 := rfl

/-- The per-item error of the fallible `crop_image` wrapper (decode,
transform, encode/write); which step failed is irrelevant to the
dispatcher, which only matches `Ok`/`Err`. -/
inductive CropError where
  | decodeFailed
  | encodeFailed
deriving DecidableEq

/-- Whether the fallible per-item run came back `Ok` (main.rs line 84). -/
def attemptOk (outcome : WorkItem → Except CropError Unit) (it : WorkItem) : Bool :=
  match outcome it with
  | .ok _ => true
  | .error _ => false

/-- Model of the `par_iter().for_each` dispatch loop with the two atomic
counters (main.rs lines 82-100): every item is attempted once, `Ok`
bumps `processed` and `Err` bumps `failed`, and no outcome stops the
loop.  The parallel fan-out is modelled as a fold; since the increments
are atomic and commute, the counters do not depend on the interleaving
(proved below as permutation invariance). -/
def runDispatch (outcome : WorkItem → Except CropError Unit)
    (items : List WorkItem) : Nat × Nat :=
  items.foldl
    (fun c it => if attemptOk outcome it then (c.1 + 1, c.2) else (c.1, c.2 + 1))
    (0, 0)

/-- The environment `main` runs in: the CLI size string, whether the
input directory exists, the entries the directory walk yields, the
output directory path, and the per-item decode/transform/encode outcome
(the fallible collaborators). -/
structure Env where
  sizeArg : List Char
  inputDirExists : Bool
  entries : List DirEntry
  outDir : List (List Char)
  outcome : WorkItem → Except CropError Unit

/-- Model of `main` (main.rs lines 32-111): exit code, final
`(processed, failed)` counters, and the list of items dispatched.
`parse_size` failure propagates through `?` (exit code 1); a missing
input directory calls `process::exit(1)`; otherwise discovery and
dispatch run and `main` returns `Ok(())` (exit code 0).  Creating the
output directory and building the thread pool (lines 43-50) are
collaborator steps assumed to succeed; they touch no WorkItem. -/
def runMain (env : Env) : Nat × (Nat × Nat) × List WorkItem :=
  match parse_size env.sizeArg with
  | .error _ => (1, (0, 0), [])
  | .ok _ =>
    if env.inputDirExists = false then (1, (0, 0), [])
    else
      let items := discoverItems env.outDir env.entries
      (0, runDispatch env.outcome items, items)

/-! ## Theorems -/

/-- C1: the claim says the resize-then-center-crop pipeline always emits
exactly `tw × th` pixels.  It does not: `DynamicImage::resize` fits the
image inside the requested bounds while preserving aspect ratio, and the
floor-divided width bound makes the fitted height fall short of `th` for
some inputs, after which `crop_imm` clips.  On a 3×5 source with target
2×4 the code emits a 2×3 buffer. -/
theorem crop_image_output_misses_target_at_3x5_to_2x4 :
    (crop_image resampleNearest img3x5 2 4).width = 2
  ∧ (crop_image resampleNearest img3x5 2 4).height = 3
  ∧ (crop_image resampleNearest img3x5 2 4).height ≠ 4 := by
  refine ⟨rfl, rfl, ?_⟩
  decide

/-- C2 counterexample: the claim says the width bound passed to `resize`
in the wider-than-target branch is `round(ow * th / oh)`.  At
`(ow, oh, tw, th) = (5, 3, 1, 4)` the code passes `20 / 3 = 6` (truncating
division) while `round(20 / 3) = 7`. -/
theorem crop_resize_args_width_not_rounded :
    crop_resize_args 5 3 1 4 = (6, 4)
  ∧ roundDiv (5 * 4) 3 = 7
  ∧ crop_resize_args 5 3 1 4 ≠ (roundDiv (5 * 4) 3, 4) := by
  decide

/-- C2 (amended): for positive dimensions whose cross products fit in
`u32`, if `ow * th > oh * tw` the resize call gets height exactly `th`
and width `⌊ow * th / oh⌋` (truncating division, not rounding);
otherwise it gets width exactly `tw` and height `⌊oh * tw / ow⌋`. -/
theorem crop_resize_args_floor (ow oh tw th : Nat)
    (h1 : ow * th < 4294967296) (h2 : oh * tw < 4294967296) :
    (ow * th > oh * tw → crop_resize_args ow oh tw th = (ow * th / oh, th))
  ∧ (¬ ow * th > oh * tw → crop_resize_args ow oh tw th = (tw, oh * tw / ow)) := by
  unfold crop_resize_args u32
  rw [Nat.mod_eq_of_lt h1, Nat.mod_eq_of_lt h2]
  constructor
  · intro h; rw [if_pos h]
  · intro h; rw [if_neg h]

/-- Witness for `crop_resize_args_floor` at the two branches: the
wider-than-target branch at `(5, 3, 1, 4)` and the other branch at
`(800, 600, 400, 300)`. -/
theorem crop_resize_args_floor_witness :
    crop_resize_args 5 3 1 4 = (5 * 4 / 3, 4)
  ∧ crop_resize_args 800 600 400 300 = (400, 600 * 400 / 800) :=
  ⟨(crop_resize_args_floor 5 3 1 4 (by decide) (by decide)).1 (by decide),
   (crop_resize_args_floor 800 600 400 300 (by decide) (by decide)).2 (by decide)⟩

/-- C3: the claim says the resized image always covers the target in both
axes, so `(resized_w - tw) / 2` and `(resized_h - th) / 2` never
underflow and the `saturating_sub` clamp is never exercised.  On the 3×5
source with target 2×4 the resized image is 2×3, its height 3 is below
the target height 4, and `3.saturating_sub(4)` clamps to 0. -/
theorem crop_resized_height_underflows_at_3x5_to_2x4 :
    (crop_resized resampleNearest img3x5 2 4).height = 3
  ∧ (crop_resized resampleNearest img3x5 2 4).height < 4
  ∧ (crop_resized resampleNearest img3x5 2 4).height - 4 = 0 := by
  refine ⟨rfl, ?_, ?_⟩ <;> decide

/-- Characterization of the per-entry pipeline: it yields an item exactly
for file entries whose lowercased extension is in the allow-set, and the
item it yields pairs the source path with the flat destination path. -/
lemma workItemFor_eq_some {outDir : List (List Char)} {e : DirEntry} {it : WorkItem} :
    workItemFor outDir e = some it ↔
      e.isFile = true ∧
      (∃ ext, rustExtension e.fileName = some ext ∧
        is_supported_image_extension (lowerStr ext) = true) ∧
      it = { src := e.dir ++ [e.fileName], dst := outDir ++ [e.fileName] } := by
  unfold workItemFor entryToWorkItem
  cases hf : e.isFile with
  | false => simp
  | true =>
    rw [if_pos rfl]
    cases hx : rustExtension e.fileName with
    | none => simp
    | some ext =>
      simp only [Option.map_some']
      by_cases hs : is_supported_image_extension (lowerStr ext) = true
      · rw [if_pos hs]
        constructor
        · intro h
          exact ⟨by trivial, ⟨ext, rfl, hs⟩, (Option.some_inj.mp h).symm⟩
        · intro ⟨_, _, h⟩
          rw [h]
      · rw [if_neg hs]
        constructor
        · intro h; exact absurd h (by simp)
        · intro ⟨_, ⟨ext2, hx2, hs2⟩, _⟩
          cases Option.some_inj.mp hx2
          exact absurd hs2 hs

/-- C7: the discovery filter produces a WorkItem for an entry iff the
entry is a file whose extension, ASCII-lowercased, is in
`{jpg, jpeg, png, gif, webp}`; the item list is exactly the filterMap of
that per-entry pipeline over the walked entries, so everything else is
dropped without producing an item (and hence never dispatched or
counted). -/
theorem discovery_filter_iff_supported (outDir : List (List Char))
    (e : DirEntry) (entries : List DirEntry) :
    ((∃ it, workItemFor outDir e = some it) ↔
      (e.isFile = true ∧ ∃ ext, rustExtension e.fileName = some ext ∧
        is_supported_image_extension (lowerStr ext) = true))
  ∧ discoverItems outDir entries = entries.filterMap (workItemFor outDir) := by
  constructor
  · constructor
    · intro ⟨it, h⟩
      obtain ⟨hf, hext, _⟩ := workItemFor_eq_some.mp h
      exact ⟨hf, hext⟩
    · intro ⟨hf, hext⟩
      exact ⟨_, workItemFor_eq_some.mpr ⟨hf, hext, rfl⟩⟩
  · induction entries with
    | nil => rfl
    | cons a as ih =>
      unfold discoverItems at ih ⊢
      cases ha : a.isFile with
      | false => simp [List.filter_cons, ha, List.filterMap_cons, workItemFor, ih]
      | true => simp [List.filter_cons, ha, List.filterMap_cons, workItemFor, ih]

/-- Witness for `discovery_filter_iff_supported`: a concrete supported
file entry produces its item, and the discovery list over a mixed entry
list is the filterMap. -/
theorem discovery_filter_iff_supported_witness :
    (∃ it, workItemFor [("out").toList]
      { isFile := true, dir := [("in").toList], fileName := ("a.JPG").toList } = some it)
  ∧ discoverItems [("out").toList]
      [{ isFile := true, dir := [("in").toList], fileName := ("a.JPG").toList },
       { isFile := true, dir := [("in").toList], fileName := ("b.txt").toList },
       { isFile := false, dir := [("in").toList], fileName := ("c.png").toList }]
    = [{ isFile := true, dir := [("in").toList], fileName := ("a.JPG").toList },
       { isFile := true, dir := [("in").toList], fileName := ("b.txt").toList },
       { isFile := false, dir := [("in").toList], fileName := ("c.png").toList }].filterMap
        (workItemFor [("out").toList]) :=
  ⟨(discovery_filter_iff_supported [("out").toList]
      { isFile := true, dir := [("in").toList], fileName := ("a.JPG").toList } []).1.mpr
    ⟨rfl, ("JPG").toList, rfl, rfl⟩,
   (discovery_filter_iff_supported [("out").toList]
      { isFile := true, dir := [("in").toList], fileName := ("a.JPG").toList } _).2⟩

/-- C8: every produced WorkItem's destination is the output directory
joined with the source file's final component (extension preserved,
directory structure discarded), so entries sharing a file name collide on
the same destination. -/
theorem workItem_dst_flattens (outDir : List (List Char)) (e1 e2 : DirEntry)
    (it1 it2 : WorkItem) (h1 : workItemFor outDir e1 = some it1)
    (h2 : workItemFor outDir e2 = some it2) :
    it1.dst = outDir ++ [e1.fileName]
  ∧ (e1.fileName = e2.fileName → it1.dst = it2.dst) := by
  obtain ⟨-, -, hit1⟩ := workItemFor_eq_some.mp h1
  obtain ⟨-, -, hit2⟩ := workItemFor_eq_some.mp h2
  subst hit1 hit2
  exact ⟨rfl, fun h => by rw [h]⟩

/-- Witness for `workItem_dst_flattens`: the same file name in two
different subdirectories maps to one destination. -/
theorem workItem_dst_flattens_witness :
    ({ src := [("a").toList, ("x.png").toList],
       dst := [("out").toList, ("x.png").toList] } : WorkItem).dst
      = [("out").toList] ++ [("x.png").toList]
  ∧ (("x.png").toList = ("x.png").toList →
      ({ src := [("a").toList, ("x.png").toList],
         dst := [("out").toList, ("x.png").toList] } : WorkItem).dst
        = ({ src := [("b").toList, ("x.png").toList],
             dst := [("out").toList, ("x.png").toList] } : WorkItem).dst) :=
  workItem_dst_flattens [("out").toList]
    { isFile := true, dir := [("a").toList], fileName := ("x.png").toList }
    { isFile := true, dir := [("b").toList], fileName := ("x.png").toList }
    _ _ rfl rfl

/-- The format table resolves every allow-set extension. -/
lemma forLower_isSome_of_supported {l : List Char}
    (hs : is_supported_image_extension l = true) :
    (ImageFormat.forLower l).isSome = true := by
  simp only [is_supported_image_extension, Bool.or_eq_true, decide_eq_true_eq] at hs
  rcases hs with ((((h | h) | h) | h) | h) <;> subst h <;> decide

/-- C10: for every dispatched WorkItem the destination's extension is in
the allow-set, so `ImageFormat::from_path` resolves to a concrete format
and the `unwrap_or(ImageFormat::Png)` fallback is never what decides the
encode format. -/
theorem workItem_dst_format_resolves (outDir : List (List Char))
    (e : DirEntry) (it : WorkItem) (h : workItemFor outDir e = some it) :
    ∃ f, ImageFormat.fromPath it.dst = some f ∧ encodeFormat it.dst = f := by
  obtain ⟨-, ⟨ext, hx, hs⟩, hit⟩ := workItemFor_eq_some.mp h
  subst hit
  have hlast : (outDir ++ [e.fileName]).getLast? = some e.fileName :=
    List.getLast?_concat _
  have hres : ImageFormat.fromPath (outDir ++ [e.fileName])
      = ImageFormat.fromExtension ext := by
    unfold ImageFormat.fromPath
    rw [hlast, Option.some_bind, hx, Option.some_bind]
  obtain ⟨f, hf⟩ := Option.isSome_iff_exists.mp
    (forLower_isSome_of_supported (l := lowerStr ext) hs)
  rw [show ImageFormat.fromExtension ext = ImageFormat.forLower (lowerStr ext) from rfl]
    at hres
  refine ⟨f, ?_, ?_⟩
  · rw [hres, hf]
  · unfold encodeFormat
    rw [hres, hf]
    rfl

/-- Witness for `workItem_dst_format_resolves`: the item for `a.JPG`
resolves to the JPEG encoder, not the PNG fallback. -/
theorem workItem_dst_format_resolves_witness :
    ∃ f, ImageFormat.fromPath
        ([("out").toList] ++ [("a.JPG").toList]) = some f
      ∧ encodeFormat ([("out").toList] ++ [("a.JPG").toList]) = f :=
  workItem_dst_format_resolves [("out").toList]
    { isFile := true, dir := [("in").toList], fileName := ("a.JPG").toList }
    { src := [("in").toList] ++ [("a.JPG").toList],
      dst := [("out").toList] ++ [("a.JPG").toList] } rfl

/-- The dispatch fold, started from arbitrary counter values, adds the
number of `Ok` outcomes to `processed` and the number of `Err` outcomes
to `failed`. -/
lemma runDispatch_foldl (outcome : WorkItem → Except CropError Unit) :
    ∀ (items : List WorkItem) (p f : Nat),
      items.foldl
          (fun c it => if attemptOk outcome it then (c.1 + 1, c.2) else (c.1, c.2 + 1))
          (p, f)
        = (p + (items.filter (attemptOk outcome)).length,
           f + (items.filter (fun it => !attemptOk outcome it)).length) := by
  intro items
  induction items with
  | nil => intro p f; simp
  | cons it its ih =>
    intro p f
    rw [List.foldl_cons]
    by_cases h : attemptOk outcome it = true
    · rw [if_pos h, ih (p + 1) f, List.filter_cons_of_pos h,
          List.filter_cons_of_neg (by simp [h])]
      rw [Prod.mk.injEq]
      constructor
      all_goals simp only [List.length_cons]
      all_goals omega
    · rw [if_neg h, ih p (f + 1), List.filter_cons_of_neg h,
          List.filter_cons_of_pos (by simp [Bool.not_eq_true] at h ⊢; simp [h])]
      rw [Prod.mk.injEq]
      constructor
      all_goals simp only [List.length_cons]
      all_goals omega

/-- C5: every dispatched item is attempted exactly once by the fold over
the item list, an `Ok` outcome bumps `processed` and an `Err` outcome
bumps `failed` (so each item lands in exactly one counter and a failing
item never stops the remaining ones from being counted), the final
counters sum to the number of dispatched items, and the counters are the
same for every processing order (the parallel interleavings commute). -/
theorem runDispatch_counts (outcome : WorkItem → Except CropError Unit)
    (items : List WorkItem) :
    runDispatch outcome items
      = ((items.filter (attemptOk outcome)).length,
         (items.filter (fun it => !attemptOk outcome it)).length)
  ∧ (runDispatch outcome items).1 + (runDispatch outcome items).2 = items.length
  ∧ ∀ other : List WorkItem, items.Perm other →
      runDispatch outcome other = runDispatch outcome items := by
  have hmain : ∀ l : List WorkItem, runDispatch outcome l
      = ((l.filter (attemptOk outcome)).length,
         (l.filter (fun it => !attemptOk outcome it)).length) := by
    intro l
    unfold runDispatch
    rw [runDispatch_foldl]
    simp
  refine ⟨hmain items, ?_, ?_⟩
  · rw [hmain items]
    exact (List.length_eq_length_filter_add (attemptOk outcome)).symm
  · intro other hperm
    rw [hmain items, hmain other]
    rw [(hperm.filter (attemptOk outcome)).length_eq,
        (hperm.filter (fun it => !attemptOk outcome it)).length_eq]

/-- Witness for `runDispatch_counts` on a two-item list where one item
fails and one succeeds. -/
theorem runDispatch_counts_witness :
    (runDispatch
        (fun it => if it.src = [("good").toList] then .ok () else .error .decodeFailed)
        [{ src := [("good").toList], dst := [] },
         { src := [("bad").toList], dst := [] }]).1
      + (runDispatch
        (fun it => if it.src = [("good").toList] then .ok () else .error .decodeFailed)
        [{ src := [("good").toList], dst := [] },
         { src := [("bad").toList], dst := [] }]).2
    = 2 :=
  (runDispatch_counts
    (fun it => if it.src = [("good").toList] then .ok () else .error .decodeFailed)
    [{ src := [("good").toList], dst := [] },
     { src := [("bad").toList], dst := [] }]).2.1

/-- C6: if the size spec is invalid `main` stops with exit code 1 before
dispatching anything; likewise if the input directory is missing; and on
normal completion the exit code is 0 no matter what the per-item
outcomes were (the outcome function in `env` is arbitrary, so this holds
even when every item failed). -/
theorem runMain_exit_codes (env : Env) :
    (∀ err, parse_size env.sizeArg = .error err → runMain env = (1, (0, 0), []))
  ∧ (∀ wh, parse_size env.sizeArg = .ok wh → env.inputDirExists = false →
      runMain env = (1, (0, 0), []))
  ∧ (∀ wh, parse_size env.sizeArg = .ok wh → env.inputDirExists = true →
      runMain env = (0, runDispatch env.outcome (discoverItems env.outDir env.entries),
        discoverItems env.outDir env.entries)) := by
  refine ⟨?_, ?_, ?_⟩
  · intro err h
    unfold runMain
    rw [h]
  · intro wh h hdir
    unfold runMain
    rw [h, hdir]
    rfl
  · intro wh h hdir
    unfold runMain
    rw [h, hdir]
    rfl

/-- Witness for `runMain_exit_codes`: a bad size spec exits 1 with no
items dispatched; a good run over no entries where every item would fail
still exits 0. -/
theorem runMain_exit_codes_witness :
    runMain { sizeArg := ("0x300").toList, inputDirExists := true, entries := [],
              outDir := [], outcome := fun _ => .error .decodeFailed }
      = (1, (0, 0), [])
  ∧ runMain { sizeArg := ("400x300").toList, inputDirExists := false, entries := [],
              outDir := [], outcome := fun _ => .error .decodeFailed }
      = (1, (0, 0), [])
  ∧ runMain { sizeArg := ("400x300").toList, inputDirExists := true, entries := [],
              outDir := [], outcome := fun _ => .error .decodeFailed }
      = (0, runDispatch (fun _ => .error .decodeFailed) (discoverItems [] []),
         discoverItems [] []) :=
  ⟨(runMain_exit_codes _).1 .nonPositive rfl,
   (runMain_exit_codes _).2.1 (400, 300) rfl rfl,
   (runMain_exit_codes _).2.2 (400, 300) rfl rfl⟩

/-- C9: on a source already at the target size the aspect comparison is
an equality, so the second branch runs, the resize bounds are exactly
`(tw, th)` (the height division is exact), `DynamicImage::resize` returns
the image unchanged, the centre-crop origin is `(0, 0)`, and the final
crop returns the input buffer pixel-identically — for any resampling
collaborator, since it is never invoked.  The `tw * th < 2^32` bound
keeps the `u32` products of the comparison exact; any decodable image
satisfies it (the decoder's allocation limit caps the pixel count). -/
theorem crop_image_identity (resample : Img → Nat → Nat → Img) (img : Img)
    (tw th : Nat) (hw : img.width = tw) (hh : img.height = th)
    (htw : 0 < tw) (hb : tw * th < 4294967296) :
    crop_resize_args img.width img.height tw th = (tw, th)
  ∧ crop_resized resample img tw th = img
  ∧ ((crop_resized resample img tw th).width - tw) / 2 = 0
  ∧ ((crop_resized resample img tw th).height - th) / 2 = 0
  ∧ crop_image resample img tw th = img := by
  subst hw hh
  have hargs : crop_resize_args img.width img.height img.width img.height
      = (img.width, img.height) := by
    unfold crop_resize_args
    rw [if_neg (by rw [Nat.mul_comm img.height img.width]; exact lt_irrefl _)]
    have hcomm : img.height * img.width = img.width * img.height :=
      Nat.mul_comm _ _
    rw [Prod.mk.injEq]
    refine ⟨rfl, ?_⟩
    unfold u32
    rw [hcomm, Nat.mod_eq_of_lt hb, Nat.mul_div_cancel_left _ htw]
  have hres : crop_resized resample img img.width img.height = img := by
    unfold crop_resized
    rw [hargs]
    unfold resizeFit
    rw [if_pos ⟨rfl, rfl⟩]
  refine ⟨hargs, hres, ?_, ?_, ?_⟩
  · rw [hres, Nat.sub_self]
  · rw [hres, Nat.sub_self]
  · unfold crop_image
    rw [hres]
    show cropImm img ((img.width - img.width) / 2) ((img.height - img.height) / 2)
        img.width img.height = img
    simp only [Nat.sub_self, Nat.zero_div]
    unfold cropImm
    ext
    all_goals simp

/-- Witness for `crop_image_identity`: a concrete 2×3 image cropped to
2×3 comes back unchanged. -/
theorem crop_image_identity_witness :
    crop_image resampleNearest
      { width := 2, height := 3, pix := fun i j => i + 10 * j } 2 3
    = { width := 2, height := 3, pix := fun i j => i + 10 * j } :=
  (crop_image_identity resampleNearest
    { width := 2, height := 3, pix := fun i j => i + 10 * j } 2 3
    rfl rfl (by decide) (by decide)).2.2.2.2

/-- Splitting a separator-free string yields the string as the single part. -/
lemma splitX_no_sep {l : List Char} (h : 'x' ∉ l) : splitX l = [l] := by
  induction l with
  | nil => rfl
  | cons c rest ih =>
    have hc : ¬ c = 'x' := fun hc => h (hc ▸ List.mem_cons_self c rest)
    have hrest : 'x' ∉ rest := fun hm => h (List.mem_cons_of_mem c hm)
    unfold splitX
    rw [if_neg hc, ih hrest]

/-- Splitting a string with one separator after a separator-free prefix
peels the prefix off as the first part. -/
lemma splitX_sep {pre : List Char} (post : List Char) (h : 'x' ∉ pre) :
    splitX (pre ++ 'x' :: post) = pre :: splitX post := by
  induction pre with
  | nil =>
    show splitX ('x' :: post) = [] :: splitX post
    conv_lhs => unfold splitX
    rw [if_pos rfl]
  | cons c cs ih =>
    have hc : ¬ c = 'x' := fun hc => h (hc ▸ List.mem_cons_self c cs)
    have hcs : 'x' ∉ cs := fun hm => h (List.mem_cons_of_mem c hm)
    show splitX (c :: (cs ++ 'x' :: post)) = (c :: cs) :: splitX post
    conv_lhs => unfold splitX
    rw [if_neg hc, ih hcs]

/-- A digit string contains no `x`. -/
lemma noX_of_digits {l : List Char} (h : l.all (fun d => d.isDigit) = true) :
    'x' ∉ l := by
  intro hm
  have hx := List.all_eq_true.mp h 'x' hm
  exact absurd hx (by decide)

/-- Rust `parse::<u32>` accepts a nonempty all-digit string whose value
fits, and returns its value. -/
lemma parseU32_digits {ds : List Char} (hne : ds ≠ [])
    (hd : ds.all (fun d => d.isDigit) = true) (hb : digitsVal ds < 4294967296) :
    parseU32 ds = some (digitsVal ds) := by
  cases ds with
  | nil => exact absurd rfl hne
  | cons c rest =>
    have hc : c.isDigit = true := List.all_eq_true.mp hd c (List.mem_cons_self c rest)
    have hcp : ¬ c = '+' := by
      intro h
      rw [h] at hc
      exact absurd hc (by decide)
    show parseDigits (if c = '+' then rest else c :: rest) = _
    rw [if_neg hcp]
    unfold parseDigits
    rw [if_pos ⟨by simp, hd⟩, if_pos hb]

/-- C4: the SizeSpec parser is total over its error taxonomy.  A
`<digits>x<digits>` string whose values are positive and fit in `u32`
yields exactly `(W, H)`; a split with other than two parts yields
`InvalidFormat`; a first/second part that does not parse as a `u32`
yields `InvalidWidth`/`InvalidHeight`; a parsed zero yields
`NonPositiveDimension`; and both parses succeeding with positive values
yields `Ok` — the function is total on `List Char`, the no-panic model
of arbitrary string input. -/
theorem parse_size_taxonomy (s : List Char) :
    (∀ ws hs, s = ws ++ 'x' :: hs →
      ws.all (fun d => d.isDigit) = true → hs.all (fun d => d.isDigit) = true →
      ws ≠ [] → hs ≠ [] →
      0 < digitsVal ws → digitsVal ws < 4294967296 →
      0 < digitsVal hs → digitsVal hs < 4294967296 →
      parse_size s = .ok (digitsVal ws, digitsVal hs))
  ∧ ((splitX s).length ≠ 2 → parse_size s = .error .invalidFormat)
  ∧ (∀ p0 p1, splitX s = [p0, p1] → parseU32 p0 = none →
      parse_size s = .error .invalidWidth)
  ∧ (∀ p0 p1 w, splitX s = [p0, p1] → parseU32 p0 = some w → parseU32 p1 = none →
      parse_size s = .error .invalidHeight)
  ∧ (∀ p0 p1 w h, splitX s = [p0, p1] → parseU32 p0 = some w →
      parseU32 p1 = some h → (w = 0 ∨ h = 0) →
      parse_size s = .error .nonPositive)
  ∧ (∀ p0 p1 w h, splitX s = [p0, p1] → parseU32 p0 = some w →
      parseU32 p1 = some h → 0 < w → 0 < h →
      parse_size s = .ok (w, h)) := by
  refine ⟨?_, ?_, ?_, ?_, ?_, ?_⟩
  · intro ws hs hsplit hwd hhd hwne hhne hwpos hwb hhpos hhb
    subst hsplit
    simp only [parse_size, splitX_sep hs (noX_of_digits hwd),
      splitX_no_sep (noX_of_digits hhd),
      parseU32_digits hwne hwd hwb, parseU32_digits hhne hhd hhb]
    rw [if_neg (by omega)]
  · intro hlen
    unfold parse_size
    rcases hsp : splitX s with _ | ⟨p0, _ | ⟨p1, _ | ⟨p2, ps⟩⟩⟩
    · rfl
    · rfl
    · rw [hsp] at hlen; exact absurd rfl hlen
    · rfl
  · intro p0 p1 hsp hw
    simp only [parse_size, hsp, hw]
  · intro p0 p1 w hsp hw hh
    simp only [parse_size, hsp, hw, hh]
  · intro p0 p1 w h hsp hw hh hzero
    simp only [parse_size, hsp, hw, hh]
    rw [if_pos hzero]
  · intro p0 p1 w h hsp hw hh hwpos hhpos
    simp only [parse_size, hsp, hw, hh]
    rw [if_neg (by omega)]

/-- Witness for `parse_size_taxonomy`, one concrete input per branch of
the taxonomy. -/
theorem parse_size_taxonomy_witness :
    parse_size ("400x300").toList = .ok (digitsVal (("400").toList), digitsVal (("300").toList))
  ∧ parse_size ("400").toList = .error .invalidFormat
  ∧ parse_size ("ax300").toList = .error .invalidWidth
  ∧ parse_size ("400xb").toList = .error .invalidHeight
  ∧ parse_size ("0x300").toList = .error .nonPositive
  ∧ parse_size ("7x9").toList = .ok (7, 9) :=
  ⟨(parse_size_taxonomy (("400x300").toList)).1 (("400").toList) (("300").toList)
      rfl rfl rfl (by decide) (by decide) (by decide) (by decide) (by decide) (by decide),
   (parse_size_taxonomy (("400").toList)).2.1 (by decide),
   (parse_size_taxonomy (("ax300").toList)).2.2.1 (("a").toList) (("300").toList)
      (by decide) (by decide),
   (parse_size_taxonomy (("400xb").toList)).2.2.2.1 (("400").toList) (("b").toList) 400
      (by decide) (by decide) (by decide),
   (parse_size_taxonomy (("0x300").toList)).2.2.2.2.1 (("0").toList) (("300").toList) 0 300
      (by decide) (by decide) (by decide) (Or.inl rfl),
   (parse_size_taxonomy (("7x9").toList)).2.2.2.2.2 (("7").toList) (("9").toList) 7 9
      (by decide) (by decide) (by decide) (by decide) (by decide)⟩

end ImgCropper
